import Mathlib

/-!
Verification development for the financial-dashboard core:
a shallow embedding of `data_processor.py`, `financial_analysis.py` and
`ai_predictions.py` (the analytical core), together with theorems settling
the frozen claims about it.

Modelling conventions:
* A raw table is a list of named columns; a cell is either a numeric value
  (modelled exactly as a rational, standing for the Python float), a piece
  of text that does not parse as a date, a piece of text that parses as a
  date (carrying its day number), or a missing value (NaN/None).
* `pd.to_datetime` on a whole column succeeds exactly when every non-missing
  cell is date-parseable text, or when the column has numeric dtype (pandas
  interprets numbers as epoch offsets, so conversion succeeds and is
  monotone in the number); missing cells become NaT and survive conversion.
* Python exceptions are modelled as `Except.error` with the raised message.
* `numpy` standard deviations are square roots of exact rational variances,
  so they live in `ℝ`; everything else is exact rational arithmetic.
-/

/-- One cell of a raw uploaded table. -/
inductive RCell where
  | num (q : ℚ)
  | str (s : String)
  | dateStr (d : ℤ)
  | null
deriving DecidableEq

/-- A named column of a raw table. -/
structure RawCol where
  name : String
  cells : List RCell
deriving DecidableEq

/-- A raw table: the ordered list of its named columns (all of equal length). -/
abbrev RTable := List RawCol

/-- Whether a cell is missing (`pd.isnull`). -/
def isNullC : RCell → Bool
  | RCell.null => true
  | _ => false

/-- Whether a cell is a numeric value. -/
def isNumC : RCell → Bool
  | RCell.num _ => true
  | _ => false

/-- Whether a cell is date-parseable text. -/
def isDateStrC : RCell → Bool
  | RCell.dateStr _ => true
  | _ => false

/-- The value a cell exposes on the time axis after `pd.to_datetime`:
date text yields its day number, a numeric cell its epoch-offset number
(an order-preserving proxy), a missing cell NaT (`none`). -/
def dateValueC : RCell → Option ℚ
  | RCell.num q => some q
  | RCell.dateStr d => some (d : ℚ)
  | _ => none

/-- Number of rows of a table (pandas invariant: all columns share it). -/
def nrowsT : RTable → ℕ
  | [] => 0
  | c :: _ => c.cells.length

/-- `DataFrame.empty`: true when either axis has length zero. -/
def tableEmpty (t : RTable) : Bool := t.isEmpty || nrowsT t == 0

/-- `data.isnull().all().all()`: every cell of every column is missing. -/
def allMissing (t : RTable) : Bool := t.all (fun c => c.cells.all isNullC)

/-- A column has numeric dtype when every cell is a number or missing
(an all-NaN column is float64, hence numeric). -/
def numericDtype (c : RawCol) : Bool := c.cells.all (fun x => isNumC x || isNullC x)

/-- Whether `pd.to_datetime(column)` succeeds: every non-missing cell is
date text, or the column has numeric dtype (epoch interpretation). -/
def toDatetimeOk (c : RawCol) : Bool :=
  c.cells.all (fun x => isNumC x || isNullC x) || c.cells.all (fun x => isDateStrC x || isNullC x)

/-- Substring test on character lists (Python's `in` on strings). -/
def charListInfix (needle : List Char) : List Char → Bool
  | [] => needle.isEmpty
  | c :: t => needle.isPrefixOf (c :: t) || charListInfix needle t

/-- `needle in hay` for strings. -/
def strContains (hay needle : String) : Bool := charListInfix needle.data hay.data

/-- Python's `str.lower()`, character by character (ASCII lowering). -/
def lowerStr (s : String) : String := String.mk (s.data.map Char.toLower)

/-- Sum-based mean of a rational list; `0` on the empty list (the empty case
is guarded away at every use site, mirroring pandas/numpy). -/
def listMean (l : List ℚ) : ℚ := if l.length = 0 then 0 else l.sum / (l.length : ℚ)

/-- `validate_financial_data`: fraction of non-missing cells (`notna().mean()`
after conversion: missing cells become NaT, everything else a date). -/
def notnaFracOK (c : RawCol) : Bool :=
  if c.cells.length = 0 then false
  else decide ((4 : ℚ) / 5 ≤ (c.cells.countP (fun x => !isNullC x) : ℚ) / (c.cells.length : ℚ))

/-- A column passes the validator's date test: full-column conversion
succeeds and at least 80 percent of the converted values are not NaT. -/
def validDateColCheck (c : RawCol) : Bool := toDatetimeOk c && notnaFracOK c

/-- Finance keywords of `validate_financial_data`. -/
def financialKeywords : List String :=
  ["amount", "price", "value", "cost", "revenue", "income", "expense",
   "balance", "profit", "sale", "asset", "liability", "cash", "fund",
   "tax", "interest", "dividend", "payment"]

/-- Columns whose lowered name contains a finance keyword. -/
def foundFinancialCols (t : RTable) : List String :=
  (t.map RawCol.name).filter (fun n => financialKeywords.any (fun k => strContains (lowerStr n) k))

/-- A single-quote character, used by the validator's success message. -/
def quoteChar : String := String.mk [Char.ofNat 39]

/-- `validate_financial_data(data)`: returns (is_valid, message), running the
source's checks in order: missing input, empty frame, column count, all-null,
date column, numeric columns, then the keyword-dependent success message. -/
def validate_financial_data (data : Option RTable) : Bool × String :=
  match data with
  | none => (false, "No data was provided.")
  | some t =>
    if tableEmpty t then (false, "The uploaded file contains no data.")
    else if t.length < 2 then
      (false, "The data must have at least two columns (typically date and values).")
    else if allMissing t then (false, "All values in the dataset are missing (null).")
    else
      match t.find? validDateColCheck with
      | none =>
        (false, "No valid date column found. Financial data should include dates (like transaction dates, statement dates, etc.).")
      | some dcol =>
        if t.countP numericDtype = 0 then
          (false, "No numeric columns found. Financial data should include numeric values (like amounts, prices, etc.).")
        else if foundFinancialCols t ≠ [] then
          (true, "Data appears to be valid financial data with date column " ++ quoteChar ++ dcol.name ++ quoteChar
                 ++ " and financial columns: " ++ String.intercalate ", " (foundFinancialCols t))
        else
          (true, "Data contains dates and numeric values which might represent financial data.")

/-- Name substrings suggesting a date column, in the source's priority order. -/
def dateIndicators : List String := ["date", "time", "day", "month", "year", "period"]

/-- Inner loop of `process_data`'s first date pass for one indicator: scan the
columns in order; a column whose lowered name contains the indicator and that
was not previously attempted is tried; success wins, failure is recorded in
the attempted list and the scan continues. -/
def tryIndicator (ind : String) (att : List String) : List RawCol → Option String × List String
  | [] => (none, att)
  | c :: rest =>
    if strContains (lowerStr c.name) ind && !att.contains c.name then
      if toDatetimeOk c then (some c.name, att)
      else tryIndicator ind (att ++ [c.name]) rest
    else tryIndicator ind att rest

/-- First date pass of `process_data`: indicators in priority order, each
scanning all columns, stopping at the first success. -/
def findDateNamePass1 (cols : List RawCol) (att : List String) : List String → Option String × List String
  | [] => (none, att)
  | ind :: rest =>
    match tryIndicator ind att cols with
    | (some c, att2) => (some c, att2)
    | (none, att2) => findDateNamePass1 cols att2 rest

/-- `process_data`'s date-column search: the named-indicator pass, then a
blind pass over every column not attempted before, in original order. -/
def findDateColumn (t : RTable) : Option String :=
  match findDateNamePass1 t [] dateIndicators with
  | (some c, _) => some c
  | (none, att) => (t.find? (fun c => !att.contains c.name && toDatetimeOk c)).map RawCol.name

/-- Numeric values of a column's cells (missing and text cells dropped). -/
def numValsC (cells : List RCell) : List ℚ :=
  cells.filterMap (fun x => match x with | RCell.num q => some q | _ => none)

/-- `isnull().mean()` of a column. -/
def nullFrac (cells : List RCell) : ℚ :=
  if cells.length = 0 then 0 else (cells.countP isNullC : ℚ) / (cells.length : ℚ)

/-- `fillna(v)` on a numeric column. -/
def fillnaNum (cells : List RCell) (v : ℚ) : List RCell :=
  cells.map (fun x => if isNullC x then RCell.num v else x)

/-- `fillna(s)` on a categorical column. -/
def fillnaStr (cells : List RCell) (s : String) : List RCell :=
  cells.map (fun x => if isNullC x then RCell.str s else x)

/-- Missing-value handling of `process_data` for one numeric column: if any
cell is missing, fill with 0 when more than half are missing, else with the
mean of the non-missing values. -/
def imputeNumericCells (cells : List RCell) : List RCell :=
  if cells.any isNullC then
    if nullFrac cells > 1 / 2 then fillnaNum cells 0
    else fillnaNum cells (listMean (numValsC cells))
  else cells

/-- Missing-value handling of `process_data` for one categorical column. -/
def imputeCatCells (cells : List RCell) : List RCell :=
  if cells.any isNullC then fillnaStr cells "Unknown" else cells

/-- One step of the numeric fill loop: impute the column when its name is
in the numeric list. -/
def imputeNumCol (nums : List String) (c : RawCol) : RawCol :=
  if nums.contains c.name then { c with cells := imputeNumericCells c.cells } else c

/-- One step of the categorical fill loop: impute the column when its name
is in the categorical list. -/
def imputeCatCol (cats : List String) (c : RawCol) : RawCol :=
  if cats.contains c.name then { c with cells := imputeCatCells c.cells } else c

/-- The imputation step of `process_data` (its two fill loops): numeric
columns first, then categorical columns, each selected by name. -/
def imputeTable (t : RTable) (nums cats : List String) : RTable :=
  (t.map (imputeNumCol nums)).map (imputeCatCol cats)

/-- The cells of the first column with the given name (`df[name]`). -/
def colCells (t : RTable) (n : String) : List RCell :=
  ((t.find? (fun c => c.name == n)).map RawCol.cells).getD []

/-- Ascending order on converted date cells with NaT sorted last
(`sort_values` default `na_position`). -/
def natLastLE : Option ℚ → Option ℚ → Bool
  | some a, some b => decide (a ≤ b)
  | some _, none => true
  | none, some _ => false
  | none, none => true

/-- `df.sort_values(by=dc)`: reorder the rows of every column by the date
key of column `dc` (a sorting permutation of the row indices, applied to
each column; ties keep a fixed order, which pandas leaves unspecified). -/
def sortRowsBy (t : RTable) (dc : String) : RTable :=
  let keys := colCells t dc
  let key := fun i => dateValueC (keys.getD i RCell.null)
  let idx := (List.range keys.length).mergeSort (fun i j => natLastLE (key i) (key j))
  t.map (fun c => { c with cells := idx.map (fun i => c.cells.getD i RCell.null) })

/-- `process_data(data)`: returns (processed data, date column, numeric
columns, categorical columns); finds the date column in two passes,
classifies the remaining columns by dtype, imputes missing values, and
sorts by the date column when one was found. -/
def process_data (data : Option RTable) : Option RTable × Option String × List String × List String :=
  match data with
  | none => (none, none, [], [])
  | some t =>
    if tableEmpty t then (some t, none, [], [])
    else
      let dc := findDateColumn t
      let nums := (t.filter (fun c => numericDtype c && (some c.name != dc))).map RawCol.name
      let cats := (t.filter (fun c => (some c.name != dc) && !((t.filter (fun c2 => numericDtype c2 && (some c2.name != dc))).map RawCol.name).contains c.name)).map RawCol.name
      let t1 := imputeTable t nums cats
      let t2 := match dc with
        | none => t1
        | some c => sortRowsBy t1 c
      (some t2, dc, nums, cats)

/-- A table in row view, as the filter functions consume it: the column
names and the rows, each row an association list from column name to cell. -/
structure DTable where
  columns : List String
  rows : List (List (String × RCell))
deriving DecidableEq

/-- `DataFrame.empty` in row view. -/
def dTableEmpty (t : DTable) : Bool := t.rows.isEmpty || t.columns.isEmpty

/-- The cell of a row in a named column. -/
def rowCell (r : List (String × RCell)) (c : String) : RCell := (r.lookup c).getD RCell.null

/-- Row predicate of `filter_data_by_date`: the converted date lies in the
closed range; a NaT (or non-date) cell compares false, as in pandas. -/
def dateRowPred (c : String) (startD endD : ℚ) (r : List (String × RCell)) : Bool :=
  match dateValueC (rowCell r c) with
  | some d => decide (startD ≤ d) && decide (d ≤ endD)
  | none => false

/-- `filter_data_by_date(data, date_column, start_date, end_date)`: keep the
rows inside the range, but return the input unchanged when the input is
missing or empty, the column is missing, or the filter result is empty. -/
def filter_data_by_date (data : Option DTable) (dateCol : Option String) (startD endD : ℚ) :
    Option DTable :=
  match data with
  | none => none
  | some t =>
    if dTableEmpty t then some t
    else
      match dateCol with
      | none => some t
      | some c =>
        if !t.columns.contains c then some t
        else
          let filtered := t.rows.filter (dateRowPred c startD endD)
          if filtered.isEmpty then some t else some { t with rows := filtered }

/-- Row predicate of `filter_data_by_category`: `isin(selected)` on the
category cell (category values are the column's strings). -/
def catRowPred (c : String) (sel : List String) (r : List (String × RCell)) : Bool :=
  match rowCell r c with
  | RCell.str s => sel.contains s
  | _ => false

/-- `filter_data_by_category(data, category_column, selected_categories)`:
keep the rows whose category is selected, but return the input unchanged
when the input is missing or empty, the column is missing, no category is
selected, or the filter result is empty. -/
def filter_data_by_category (data : Option DTable) (catCol : Option String) (sel : List String) :
    Option DTable :=
  match data with
  | none => none
  | some t =>
    if dTableEmpty t then some t
    else
      match catCol with
      | none => some t
      | some c =>
        if !t.columns.contains c then some t
        else if sel.isEmpty then some t
        else
          let filtered := t.rows.filter (catRowPred c sel)
          if filtered.isEmpty then some t else some { t with rows := filtered }

/-- `dropna()` on a numeric column in value view. -/
def dropna (cells : List (Option ℚ)) : List ℚ := cells.filterMap id

/-- First non-missing value of a column (`col_data.iloc[0]` after `dropna`). -/
def firstNM (cells : List (Option ℚ)) : Option ℚ := (dropna cells).head?

/-- Population variance (`np.std` squared): mean squared deviation. -/
def popVar (l : List ℚ) : ℚ :=
  if l.length = 0 then 0 else (l.map (fun x => (x - listMean l) ^ 2)).sum / (l.length : ℚ)

/-- `np.std`: population standard deviation. -/
noncomputable def npStd (l : List ℚ) : ℝ := Real.sqrt (popVar l)

/-- Sample variance (pandas `std`, ddof = 1); 0 below two points. -/
def sampleVar (l : List ℚ) : ℚ :=
  if l.length ≤ 1 then 0 else (l.map (fun x => (x - listMean l) ^ 2)).sum / ((l.length : ℚ) - 1)

/-- pandas `Series.std()`. -/
noncomputable def sampleStd (l : List ℚ) : ℝ := Real.sqrt (sampleVar l)

/-- Per-column block of `calculate_financial_metrics` (its first loop): the
mean, the guarded percent change between first and last value in table
order, and the volatility, each keyed like the source's dictionary. -/
noncomputable def colMetrics (colName : String) (cells : List (Option ℚ)) : List (String × ℝ) :=
  let cd := dropna cells
  if cd.length > 0 then
    [("Avg " ++ colName, ((listMean cd : ℚ) : ℝ))]
    ++ (if cd.length > 1 then
          (if cd.headD 0 ≠ 0 then
            [(colName ++ " Change %", (((cd.getLastD 0 - cd.headD 0) / cd.headD 0 * 100 : ℚ) : ℝ))]
          else [])
        else [])
    ++ (if cd.length > 2 then [(colName ++ " Volatility", sampleStd cd)] else [])
  else []

/-- Ordinary-least-squares slope of `ys` on `xs` (single feature plus
intercept). `LinearRegression` centers the data before solving, so a
degenerate feature (all `xs` equal, zero denominator) yields slope 0. -/
def olsSlope (xs ys : List ℚ) : ℚ :=
  let n : ℚ := xs.length
  let sx := xs.sum
  let sy := ys.sum
  let sxy := ((xs.zip ys).map (fun p => p.1 * p.2)).sum
  let sxx := (xs.map (fun x => x * x)).sum
  if n * sxx - sx * sx = 0 then 0 else (n * sxy - sx * sy) / (n * sxx - sx * sx)

/-- Ordinary-least-squares intercept: mean response minus slope times mean
feature (exactly `LinearRegression`'s intercept after centering). -/
def olsIntercept (xs ys : List ℚ) : ℚ := listMean ys - olsSlope xs ys * listMean xs

/-- `data.sort_values(by=date_column)` for the (date, value) pair view used
by `predict_future_values`. -/
def sortPairs (pairs : List (ℤ × ℚ)) : List (ℤ × ℚ) :=
  pairs.mergeSort (fun p q => decide (p.1 ≤ q.1))

/-- Dates of the sorted pairs. -/
def datesOf (pairs : List (ℤ × ℚ)) : List ℤ := (sortPairs pairs).map Prod.fst

/-- Values of the sorted pairs. -/
def valuesOf (pairs : List (ℤ × ℚ)) : List ℚ := (sortPairs pairs).map Prod.snd

/-- Fold-based minimum of a list of integers (`dates.min()`). -/
def listMinI (l : List ℤ) : ℤ := l.foldl min (l.headD 0)

/-- Fold-based maximum of a list of integers (`dates.max()`). -/
def listMaxI (l : List ℤ) : ℤ := l.foldl max (l.headD 0)

/-- Day offsets since the first date: the regression feature `X`. -/
def offsetsOf (pairs : List (ℤ × ℚ)) : List ℚ :=
  (datesOf pairs).map (fun d => ((d - listMinI (datesOf pairs) : ℤ) : ℚ))

/-- Fitted slope of value on day offset. -/
def slopeOf (pairs : List (ℤ × ℚ)) : ℚ := olsSlope (offsetsOf pairs) (valuesOf pairs)

/-- Fitted intercept of value on day offset. -/
def interceptOf (pairs : List (ℤ × ℚ)) : ℚ := olsIntercept (offsetsOf pairs) (valuesOf pairs)

/-- Day offsets of the forecast window: one-day steps past the last
observed date (`X_future`). -/
def futOffsets (pairs : List (ℤ × ℚ)) (days : ℕ) : List ℚ :=
  (List.range days).map
    (fun (i : ℕ) => ((listMaxI (datesOf pairs) + (i : ℤ) + 1 - listMinI (datesOf pairs) : ℤ) : ℚ))

/-- The forecast values `y_future = model.predict(X_future)`. -/
def forecastOf (pairs : List (ℤ × ℚ)) (days : ℕ) : List ℚ :=
  (futOffsets pairs days).map (fun x => interceptOf pairs + slopeOf pairs * x)

/-- Residuals of the fit over the historical window
(`y - model.predict(X)`). -/
def fitResiduals (pairs : List (ℤ × ℚ)) : List ℚ :=
  List.zipWith (fun x y => y - (interceptOf pairs + slopeOf pairs * x)) (offsetsOf pairs) (valuesOf pairs)

/-- The result dictionary of `predict_future_values`, together with the
plotted forecast series and its confidence band (the two band traces of the
figure). The trend description keeps the template text without the
interpolated percentage. -/
structure PredictionResult where
  average_prediction : ℚ
  percent_change : ℚ
  trend_description : String
  confidence_interval : ℝ
  forecast : List ℚ
  upperBound : List ℝ
  lowerBound : List ℝ

/-- The unguarded computation of `predict_future_values` on non-missing
(date, value) pairs. -/
noncomputable def predictCore (pairs : List (ℤ × ℚ)) (days : ℕ) : PredictionResult :=
  let yfut := forecastOf pairs days
  let sigma := npStd (fitResiduals pairs)
  let avg := listMean yfut
  let lastValue := (valuesOf pairs).getLastD 0
  let pct := if lastValue ≠ 0 then (avg - lastValue) / lastValue * 100 else 0
  { average_prediction := avg
    percent_change := pct
    trend_description :=
      if pct > 5 then "Strong upward trend predicted"
      else if pct > 0 then "Slight upward trend predicted"
      else if pct < -5 then "Strong downward trend predicted"
      else if pct < 0 then "Slight downward trend predicted"
      else "Stable trend predicted with minimal change"
    confidence_interval := sigma * 2
    forecast := yfut
    upperBound := yfut.map (fun v => (v : ℝ) + 2 * sigma)
    lowerBound := yfut.map (fun v => (v : ℝ) - 2 * sigma) }

/-- The message of the `ValueError` raised by the ten-point guard. -/
def insufficientDataMsg : String :=
  "Not enough data points for reliable prediction. Need at least 10 data points."

/-- The rejection raised by `LinearRegression.fit` when the value column
still contains NaN (scikit-learn's input validation), modelled by its
leading message text. -/
def fitNaNMsg : String := "Input contains NaN."

/-- `predict_future_values(data, date_column, value_column, days_to_predict)`
on the (date, value) column pair: the guard counts every row of the value
column (missing or not); past the guard, a still-missing value makes the
regression fit raise; otherwise the linear forecast is produced. -/
noncomputable def predict_future_values (pairs : List (ℤ × Option ℚ)) (days : ℕ) :
    Except String PredictionResult :=
  if pairs.length < 10 then Except.error insufficientDataMsg
  else if pairs.any (fun p => p.2.isNone) then Except.error fitNaNMsg
  else Except.ok (predictCore (pairs.map (fun p => (p.1, p.2.getD 0))) days)

/-- Residual standard deviation of the fit over the historical window, as
the specification words it: the root mean square of the fit's residuals. -/
noncomputable def residStdSpec (pairs : List (ℤ × ℚ)) : ℝ :=
  Real.sqrt (listMean ((fitResiduals pairs).map (fun r => r ^ 2)))

/-- The table view `predict_financial_health` consumes: the frame's row
count and its numeric columns with their (imputed, hence non-missing)
values. -/
structure HTable where
  nrows : ℕ
  cols : List (String × List ℚ)

/-- The dictionary returned by `predict_financial_health`; the null outcomes
carry an empty contribution list (the source omits the key). -/
structure HealthResult where
  health_score : Option ℤ
  description : String
  feature_contributions : List (String × ℝ)

/-- The numeric column names whose lowered name contains one of the given
keywords, in column order. -/
def colNamesWith (t : HTable) (keys : List String) : List String :=
  (t.cols.map Prod.fst).filter (fun n => keys.any (fun k => strContains (lowerStr n) k))

/-- Revenue keywords of `predict_financial_health`. -/
def revenueKeys : List String := ["revenue", "income", "sales"]

/-- Expense keywords of `predict_financial_health`. -/
def expenseKeys : List String := ["expense", "cost", "spend"]

/-- `data[name].values` for the health scorer (first column of that name). -/
def hcol (t : HTable) (n : String) : List ℚ := (t.cols.lookup n).getD []

/-- Slope of a linear regression of the values on their row index
(`np.arange(len(values))`). -/
def indexSlope (vals : List ℚ) : ℚ :=
  olsSlope ((List.range vals.length).map (fun (i : ℕ) => (i : ℚ))) vals

/-- Index-regression slope normalized by the column mean, 0 when the mean
is 0 (the source's guarded normalization). -/
def normTrend (vals : List ℚ) : ℚ :=
  if listMean vals ≠ 0 then indexSlope vals / listMean vals else 0

/-- The per-row profit margins `(revenue - expense) / revenue` (0 when
revenue is 0), over `range(len(data))` with positional access. -/
def profitMargins (t : HTable) (rc ec : String) : List ℚ :=
  (List.range t.nrows).map (fun i =>
    let r := (hcol t rc).getD i 0
    let e := (hcol t ec).getD i 0
    if r ≠ 0 then (r - e) / r else 0)

/-- The numeric columns feeding the volatility feature: those matching
neither keyword set. -/
def volCols (t : HTable) : List String :=
  (t.cols.map Prod.fst).filter
    (fun n => !(colNamesWith t revenueKeys ++ colNamesWith t expenseKeys).contains n)

/-- The volatility scores `np.std(values) / np.mean(values)` of the
non-keyword columns with data and nonzero mean. -/
noncomputable def volScores (t : HTable) : List ℝ :=
  (volCols t).filterMap (fun n =>
    let v := hcol t n
    if 0 < v.length ∧ listMean v ≠ 0 then some (npStd v / ((listMean v : ℚ) : ℝ)) else none)

/-- Whether the volatility feature is appended (`if volatility_scores:`). -/
def volPresent (t : HTable) : Bool :=
  (volCols t).any (fun n => decide (0 < (hcol t n).length) && decide (listMean (hcol t n) ≠ 0))

/-- Mean of a list of reals (`np.mean`); 0 on the empty list. -/
noncomputable def listMeanR (l : List ℝ) : ℝ := if l.length = 0 then 0 else l.sum / (l.length : ℝ)

/-- The feature vector of `predict_financial_health`, built in source
order: normalized revenue trend, sign-flipped normalized expense trend,
scaled profit-margin trend, sign-flipped average volatility. -/
noncomputable def healthFeatures (t : HTable) : List ℝ :=
  (match (colNamesWith t revenueKeys).head? with
    | some rc => [((normTrend (hcol t rc) : ℚ) : ℝ)]
    | none => [])
  ++ (match (colNamesWith t expenseKeys).head? with
    | some ec => [((-normTrend (hcol t ec) : ℚ) : ℝ)]
    | none => [])
  ++ (match (colNamesWith t revenueKeys).head?, (colNamesWith t expenseKeys).head? with
    | some rc, some ec => [((indexSlope (profitMargins t rc ec) * 100 : ℚ) : ℝ)]
    | _, _ => [])
  ++ (if volPresent t then [-listMeanR (volScores t)] else [])

/-- The raw feature importances accompanying `healthFeatures`, in the same
order: 0.4 revenue, 0.3 expense, 0.3 margin, 0.1 volatility. -/
def healthWeights (t : HTable) : List ℝ :=
  (if (colNamesWith t revenueKeys).isEmpty then [] else [(0.4 : ℝ)])
  ++ (if (colNamesWith t expenseKeys).isEmpty then [] else [(0.3 : ℝ)])
  ++ (if (colNamesWith t revenueKeys).isEmpty || (colNamesWith t expenseKeys).isEmpty then []
      else [(0.3 : ℝ)])
  ++ (if volPresent t then [(0.1 : ℝ)] else [])

/-- `np.clip(x, -1, 1)`. -/
noncomputable def npClip (x : ℝ) : ℝ := min 1 (max (-1) x)

/-- The weighted composite of `predict_financial_health`: clipped features
times the importances renormalized to sum to one. -/
noncomputable def weighted_score (t : HTable) : ℝ :=
  let fs := (healthFeatures t).map npClip
  let ws := healthWeights t
  ((fs.zip (ws.map (fun w => w / ws.sum))).map (fun p => p.1 * p.2)).sum

/-- Python's `int()` conversion: truncation toward zero. -/
noncomputable def pyInt (x : ℝ) : ℤ := if 0 ≤ x then ⌊x⌋ else ⌈x⌉

/-- The fixed description thresholds of `predict_financial_health`. -/
def healthLabel (s : ℤ) : String :=
  if s ≥ 80 then "Excellent financial health with strong positive trends"
  else if s ≥ 60 then "Good financial health with generally positive indicators"
  else if s ≥ 40 then "Moderate financial health with mixed indicators"
  else if s ≥ 20 then "Concerning financial health with several negative trends"
  else "Poor financial health with significant negative indicators"

/-- The four contribution labels zipped against the contributions
(`dict(zip(...))`, truncating like Python's `zip`). -/
def featureNames : List String := ["Revenue Trend", "Expense Trend", "Profit Margin Trend", "Volatility"]

/-- `predict_financial_health(data, numeric_columns)`: the ten-row guard,
the feature-presence guard, then the clipped weighted composite mapped by
`int((score + 1) * 50)` onto 0..100 and labelled by fixed thresholds. -/
noncomputable def predict_financial_health (t : HTable) : HealthResult :=
  if t.nrows < 10 then
    { health_score := none
      description := "Not enough data for financial health prediction"
      feature_contributions := [] }
  else if (healthFeatures t).isEmpty then
    { health_score := none
      description := "Insufficient financial data for health prediction"
      feature_contributions := [] }
  else
    let score := max 0 (min 100 (pyInt ((weighted_score t + 1) * 50)))
    { health_score := some score
      description := healthLabel score
      feature_contributions :=
        featureNames.zip
          ((((healthFeatures t).map npClip).zip
            ((healthWeights t).map (fun w => w / (healthWeights t).sum))).map (fun p => p.1 * p.2)) }

/-- The composite as the claim words it: each feature clipped to [-1, 1],
the weights of the present features renormalized to sum to 1, and the
weighted sum taken. -/
noncomputable def compositeSpec (t : HTable) : ℝ :=
  ((((healthFeatures t).map npClip).zip (healthWeights t)).map (fun p => p.1 * p.2)).sum
    / (healthWeights t).sum

/-- Whether any health feature is present: a revenue or expense keyword
column, or a volatility column with data and nonzero mean. -/
def hasFeatures (t : HTable) : Bool :=
  !(colNamesWith t revenueKeys).isEmpty || !(colNamesWith t expenseKeys).isEmpty || volPresent t

/-- The two-pass date search as the claim words it, first pass: for each
indicator in priority order, the first column whose name contains it and
that parses entirely as dates. -/
def findDateColumnSpecPass1 (t : RTable) : Option String :=
  dateIndicators.findSome? (fun ind =>
    (t.find? (fun c => strContains (lowerStr c.name) ind && toDatetimeOk c)).map RawCol.name)

/-- Whether a column name contains some date-indicator substring. -/
def hasIndicator (n : String) : Bool := dateIndicators.any (fun ind => strContains (lowerStr n) ind)

/-- The two-pass date search as the claim words it: the indicator pass,
else the first fully-parsing column among the remaining (indicator-free)
columns in original order. -/
def findDateColumnSpec (t : RTable) : Option String :=
  match findDateColumnSpecPass1 t with
  | some c => some c
  | none => ((t.filter (fun c => !hasIndicator c.name)).find? toDatetimeOk).map RawCol.name

/-! ## Helper lemmas -/

theorem getD_map_at (f : RCell → RCell) (l : List RCell) (i : ℕ) (hi : i < l.length) :
    (l.map f).getD i RCell.null = f (l.getD i RCell.null) := by
  rw [List.getD_eq_getElem?_getD, List.getElem?_map, List.getD_eq_getElem?_getD,
    List.getElem?_eq_getElem hi]
  simp

theorem getD_mem_of_lt (l : List RCell) (i : ℕ) (hi : i < l.length) :
    l.getD i RCell.null ∈ l := by
  rw [List.getD_eq_getElem?_getD, List.getElem?_eq_getElem hi]
  exact List.getElem_mem hi

theorem fillnaNum_no_null (cells : List RCell) (v : ℚ) :
    (fillnaNum cells v).any isNullC = false := by
  simp only [fillnaNum, List.any_map, List.any_eq_false]
  intro x _
  cases x <;> simp [isNullC]

theorem fillnaStr_no_null (cells : List RCell) (s : String) :
    (fillnaStr cells s).any isNullC = false := by
  simp only [fillnaStr, List.any_map, List.any_eq_false]
  intro x _
  cases x <;> simp [isNullC]

theorem imputeNumericCells_no_null (cells : List RCell) :
    (imputeNumericCells cells).any isNullC = false := by
  unfold imputeNumericCells
  by_cases h : cells.any isNullC = true
  · rw [if_pos h]
    by_cases h2 : nullFrac cells > 1 / 2
    · rw [if_pos h2]
      exact fillnaNum_no_null cells 0
    · rw [if_neg h2]
      exact fillnaNum_no_null cells _
  · rw [if_neg h]
    simpa using h

theorem imputeCatCells_no_null (cells : List RCell) :
    (imputeCatCells cells).any isNullC = false := by
  unfold imputeCatCells
  by_cases h : cells.any isNullC
  · simp [h, fillnaStr_no_null]
  · simp only [Bool.not_eq_true] at h
    simp [h]

theorem imputeNumericCells_of_no_null (cells : List RCell) (h : cells.any isNullC = false) :
    imputeNumericCells cells = cells := by
  simp [imputeNumericCells, h]

theorem imputeCatCells_of_no_null (cells : List RCell) (h : cells.any isNullC = false) :
    imputeCatCells cells = cells := by
  simp [imputeCatCells, h]

/-! ## Claim C3 -/

/-- Claim C3: in the imputation step of `process_data`, a numeric column's
missing cells are filled with 0 when the missing fraction exceeds one half
and with the mean of the non-missing values otherwise, a categorical
column's missing cells are filled with the label "Unknown", non-missing
cells are left unchanged, and afterwards no missing cell remains. -/
theorem imputer_fill_policy (cells : List RCell) (i : ℕ) (hi : i < cells.length) :
    (cells.getD i RCell.null = RCell.null → 1 / 2 < nullFrac cells →
       (imputeNumericCells cells).getD i RCell.null = RCell.num 0)
  ∧ (cells.getD i RCell.null = RCell.null → nullFrac cells ≤ 1 / 2 →
       (imputeNumericCells cells).getD i RCell.null = RCell.num (listMean (numValsC cells)))
  ∧ (cells.getD i RCell.null = RCell.null →
       (imputeCatCells cells).getD i RCell.null = RCell.str "Unknown")
  ∧ (cells.getD i RCell.null ≠ RCell.null →
       (imputeNumericCells cells).getD i RCell.null = cells.getD i RCell.null
       ∧ (imputeCatCells cells).getD i RCell.null = cells.getD i RCell.null)
  ∧ (imputeNumericCells cells).countP isNullC = 0
  ∧ (imputeCatCells cells).countP isNullC = 0 := by
  have hmem : cells.getD i RCell.null ∈ cells := getD_mem_of_lt cells i hi
  have hany : cells.getD i RCell.null = RCell.null → cells.any isNullC = true := by
    intro h
    exact List.any_eq_true.mpr ⟨RCell.null, h ▸ hmem, rfl⟩
  refine ⟨?_, ?_, ?_, ?_, ?_, ?_⟩
  · intro h hfrac
    simp only [imputeNumericCells, hany h, if_true, hfrac, gt_iff_lt, if_pos]
    rw [fillnaNum, getD_map_at _ _ _ hi, h]
    simp [isNullC]
  · intro h hfrac
    have : ¬(nullFrac cells > 1 / 2) := by exact not_lt.mpr hfrac
    simp only [imputeNumericCells, hany h, if_true, this, if_false]
    rw [fillnaNum, getD_map_at _ _ _ hi, h]
    simp [isNullC]
  · intro h
    simp only [imputeCatCells, hany h, if_true]
    rw [fillnaStr, getD_map_at _ _ _ hi, h]
    simp [isNullC]
  · intro h
    have hnn : isNullC (cells.getD i RCell.null) = false := by
      cases hx : cells.getD i RCell.null <;> simp_all [isNullC]
    constructor
    · unfold imputeNumericCells
      by_cases ha : cells.any isNullC = true
      · rw [if_pos ha]
        by_cases h2 : nullFrac cells > 1 / 2
        · rw [if_pos h2, fillnaNum, getD_map_at _ _ _ hi]
          simp only [hnn]
          simp
        · rw [if_neg h2, fillnaNum, getD_map_at _ _ _ hi]
          simp only [hnn]
          simp
      · rw [if_neg ha]
    · unfold imputeCatCells
      by_cases ha : cells.any isNullC = true
      · rw [if_pos ha, fillnaStr, getD_map_at _ _ _ hi]
        simp only [hnn]
        simp
      · rw [if_neg ha]
  · have := imputeNumericCells_no_null cells
    rw [List.any_eq_false] at this
    rw [List.countP_eq_zero]
    exact fun a ha => by simpa using this a ha
  · have := imputeCatCells_no_null cells
    rw [List.any_eq_false] at this
    rw [List.countP_eq_zero]
    exact fun a ha => by simpa using this a ha

/-- A concrete imputation column exercising Claim C3's hypotheses: half the
cells missing, so the mean fill applies. -/
def exImpCells : List RCell := [RCell.null, RCell.num 4]

/-- Witness for Claim C3 at a concrete column. -/
theorem imputer_fill_policy_witness :
    (imputeNumericCells exImpCells).getD 0 RCell.null = RCell.num (listMean (numValsC exImpCells)) :=
  (imputer_fill_policy exImpCells 0 (by decide)).2.1 (by decide)
    (by simp [nullFrac, exImpCells, List.countP_cons, isNullC])

/-! ## Claim C7 -/

theorem catImp_numImp (x : List RCell) :
    imputeCatCells (imputeNumericCells x) = imputeNumericCells x :=
  imputeCatCells_of_no_null _ (imputeNumericCells_no_null x)

theorem numImp_numImp (x : List RCell) :
    imputeNumericCells (imputeNumericCells x) = imputeNumericCells x :=
  imputeNumericCells_of_no_null _ (imputeNumericCells_no_null x)

theorem catImp_catImp (x : List RCell) :
    imputeCatCells (imputeCatCells x) = imputeCatCells x :=
  imputeCatCells_of_no_null _ (imputeCatCells_no_null x)

theorem numImp_catImp (x : List RCell) :
    imputeNumericCells (imputeCatCells x) = imputeCatCells x :=
  imputeNumericCells_of_no_null _ (imputeCatCells_no_null x)

/-- Claim C7: the imputation step of `process_data` is idempotent — applying
it to an already-imputed table changes no cell. -/
theorem imputation_idempotent (t : RTable) (nums cats : List String) :
    imputeTable (imputeTable t nums cats) nums cats = imputeTable t nums cats := by
  unfold imputeTable
  simp only [List.map_map]
  apply List.map_congr_left
  intro c _
  simp only [Function.comp_apply]
  obtain ⟨nm, x⟩ := c
  by_cases hn : nm ∈ nums <;> by_cases hc : nm ∈ cats <;>
    simp [imputeNumCol, imputeCatCol, hn, hc, catImp_numImp, numImp_numImp, catImp_catImp,
      numImp_catImp]

/-! ## Claim C9 -/

/-- Claim C9: on a non-empty table, `filter_data_by_date` and
`filter_data_by_category` return exactly the matching rows, except that
they return the original table unchanged whenever the named column is
absent, no category is selected, or the filter result would be empty. -/
theorem filter_fallback (t : DTable) (h : dTableEmpty t = false) (c : String) (s e : ℚ)
    (sel : List String) :
    (filter_data_by_date (some t) (some c) s e =
      some (if t.columns.contains c = true ∧ t.rows.filter (dateRowPred c s e) ≠ []
            then { t with rows := t.rows.filter (dateRowPred c s e) } else t))
  ∧ (filter_data_by_category (some t) (some c) sel =
      some (if t.columns.contains c = true ∧ sel ≠ [] ∧ t.rows.filter (catRowPred c sel) ≠ []
            then { t with rows := t.rows.filter (catRowPred c sel) } else t)) := by
  constructor
  · simp only [filter_data_by_date, h, Bool.false_eq_true, if_false]
    by_cases hc : t.columns.contains c = true
    · simp only [hc, Bool.not_true, Bool.false_eq_true, if_false]
      by_cases hf : t.rows.filter (dateRowPred c s e) = []
      · simp [hf]
      · simp only [List.isEmpty_iff, hf, if_false]
        simp [hc, hf]
    · have hc3 : ¬c ∈ t.columns := by simpa using hc
      simp [hc3]
  · simp only [filter_data_by_category, h, Bool.false_eq_true, if_false]
    by_cases hc : t.columns.contains c = true
    · simp only [hc, Bool.not_true, Bool.false_eq_true, if_false]
      by_cases hs : sel = []
      · simp [hs]
      · simp only [List.isEmpty_iff, hs, if_false]
        by_cases hf : t.rows.filter (catRowPred c sel) = []
        · simp [hf, hs]
        · simp [hc, hf, hs]
    · have hc3 : ¬c ∈ t.columns := by simpa using hc
      simp [hc3]

/-- A concrete two-row table for the filter claims. -/
def exDTable : DTable :=
  { columns := ["date", "amount"]
    rows := [[("date", RCell.dateStr 5), ("amount", RCell.num 3)],
             [("date", RCell.dateStr 9), ("amount", RCell.num 4)]] }

/-- Witness for Claim C9: on a concrete table, a range matching only the
first row keeps exactly that row, and an unselected category list returns
the table unchanged. -/
theorem filter_fallback_witness :
    (filter_data_by_date (some exDTable) (some "date") 0 6 =
      some (if exDTable.columns.contains "date" = true
              ∧ exDTable.rows.filter (dateRowPred "date" 0 6) ≠ []
            then { exDTable with rows := exDTable.rows.filter (dateRowPred "date" 0 6) }
            else exDTable))
  ∧ (filter_data_by_category (some exDTable) (some "amount") [] =
      some (if exDTable.columns.contains "amount" = true ∧ ([] : List String) ≠ []
              ∧ exDTable.rows.filter (catRowPred "amount" []) ≠ []
            then { exDTable with rows := exDTable.rows.filter (catRowPred "amount" []) }
            else exDTable)) :=
  ⟨(filter_fallback exDTable (by decide) "date" 0 6 []).1,
   (filter_fallback exDTable (by decide) "amount" 0 6 []).2⟩

/-! ## Claim C6 -/

/-- Claim C6: in `calculate_financial_metrics`, a numeric column whose
first non-missing value is zero gets no "Change %" metric, and a column
with a nonzero first value and at least two non-missing values gets
exactly (last - first) / first * 100 in table order. -/
theorem change_pct_guard (name : String) (cells : List (Option ℚ)) :
    (firstNM cells = some 0 → (colMetrics name cells).lookup (name ++ " Change %") = none)
  ∧ (∀ a : ℚ, firstNM cells = some a → a ≠ 0 → 2 ≤ (dropna cells).length →
      (colMetrics name cells).lookup (name ++ " Change %") =
        some ((((dropna cells).getLastD 0 - a) / a * 100 : ℚ) : ℝ)) := by
  have ha : ("Avg " : String).length = 4 := rfl
  have hb : (" Change %" : String).length = 9 := rfl
  have hkey1 : ((name ++ " Change %" : String) == ("Avg " ++ name : String)) = false := by
    apply beq_eq_false_iff_ne.mpr
    intro hcon
    have := congrArg String.length hcon
    simp only [String.length_append] at this
    rw [ha, hb] at this
    omega
  have hkey2 : ((name ++ " Change %" : String) == (name ++ " Volatility" : String)) = false := by
    apply beq_eq_false_iff_ne.mpr
    intro hcon
    have := congrArg String.length hcon
    simp only [String.length_append, Nat.add_right_cancel_iff, Nat.add_left_cancel_iff] at this
    exact absurd this (by decide)
  have hkey1p : ¬(name ++ " Change %" = "Avg " ++ name) := beq_eq_false_iff_ne.mp hkey1
  have hkey2p : ¬(name ++ " Change %" = name ++ " Volatility") := beq_eq_false_iff_ne.mp hkey2
  constructor
  · intro h0
    obtain ⟨tl, htl⟩ : ∃ tl, dropna cells = 0 :: tl := by
      unfold firstNM at h0
      cases hd : dropna cells with
      | nil => rw [hd] at h0; simp at h0
      | cons a tl =>
        rw [hd] at h0
        simp at h0
        exact ⟨tl, by rw [h0]⟩
    unfold colMetrics
    rw [htl]
    simp only [List.length_cons, Nat.zero_lt_succ, if_pos, List.headD_cons]
    have hne0 : ¬((0 : ℚ) ≠ 0) := by simp
    simp only [hne0, if_false, List.nil_append]
    by_cases hlen2 : (0 :: tl).length > 2
    · simp [hlen2, List.lookup, hkey1, hkey2, hkey1p, hkey2p]
    · simp [hlen2, List.lookup, hkey1, hkey1p, hkey2p]
  · intro a haf hne hlen
    obtain ⟨tl, htl⟩ : ∃ tl, dropna cells = a :: tl := by
      unfold firstNM at haf
      cases hd : dropna cells with
      | nil => rw [hd] at haf; simp at haf
      | cons b tl =>
        rw [hd] at haf
        simp at haf
        exact ⟨tl, by rw [haf]⟩
    unfold colMetrics
    rw [htl]
    rw [htl] at hlen
    have hlen1 : (a :: tl).length > 1 := by simpa using hlen
    simp only [List.length_cons, Nat.zero_lt_succ, if_pos, List.headD_cons, hlen1, if_true, hne,
      ne_eq, not_false_eq_true]
    have htl0 : 0 < tl.length := by
      simp only [List.length_cons] at hlen
      omega
    by_cases hlen2 : (a :: tl).length > 2
    · simp [hlen2, htl0, List.lookup, hkey1, hkey1p, hkey2p]
    · simp [hlen2, htl0, List.lookup, hkey1, hkey1p, hkey2p]

/-- A concrete column whose first non-missing value is zero. -/
def exZeroFirst : List (Option ℚ) := [none, some 0, some 7]

/-- A concrete column with nonzero first value. -/
def exGrowthCol : List (Option ℚ) := [some 5, none, some 8]

/-- Witness for Claim C6: the zero-first column loses its "Change %"
metric, the nonzero column gets the percent-change formula. -/
theorem change_pct_guard_witness :
    ((colMetrics "price" exZeroFirst).lookup ("price" ++ " Change %") = none)
  ∧ ((colMetrics "price" exGrowthCol).lookup ("price" ++ " Change %") =
      some ((((dropna exGrowthCol).getLastD 0 - 5) / 5 * 100 : ℚ) : ℝ)) :=
  ⟨(change_pct_guard "price" exZeroFirst).1 (by decide),
   (change_pct_guard "price" exGrowthCol).2 5 (by decide) (by decide) (by decide)⟩

/-! ## Claim C1 -/

/-- Claim C1 (amended): the ten-point guard of `predict_future_values`
counts every row of the value column, missing or not; below ten rows the
call fails with the insufficient-data `ValueError` and never returns a
forecast, while at ten or more rows a still-missing value makes the
regression fit fail with its NaN rejection instead. -/
theorem trend_insufficient_guard (pairs : List (ℤ × Option ℚ)) (days : ℕ) :
    (pairs.length < 10 → predict_future_values pairs days = Except.error insufficientDataMsg)
  ∧ (10 ≤ pairs.length → pairs.any (fun p => p.2.isNone) = true →
      predict_future_values pairs days = Except.error fitNaNMsg) := by
  constructor
  · intro h
    simp [predict_future_values, h]
  · intro h1 h2
    simp [predict_future_values, Nat.not_lt.mpr h1, h2]

/-- Nine rows: below the guard. -/
def exNinePairs : List (ℤ × Option ℚ) :=
  [(0, some 1), (1, some 1), (2, some 1), (3, some 1), (4, some 1),
   (5, some 1), (6, some 1), (7, some 1), (8, some 1)]

/-- Ten rows of which one value is missing: only nine non-missing pairs. -/
def exTenOneMissing : List (ℤ × Option ℚ) :=
  [(0, some 1), (1, some 1), (2, some 1), (3, some 1), (4, some 1),
   (5, some 1), (6, some 1), (7, some 1), (8, some 1), (9, none)]

/-- Witness for Claim C1 (amended) at nine rows and at ten rows with a
missing value. -/
theorem trend_insufficient_guard_witness :
    predict_future_values exNinePairs 30 = Except.error insufficientDataMsg
  ∧ predict_future_values exTenOneMissing 30 = Except.error fitNaNMsg :=
  ⟨(trend_insufficient_guard exNinePairs 30).1 (by decide),
   (trend_insufficient_guard exTenOneMissing 30).2 (by decide) (by decide)⟩

/-- Counterexample to Claim C1 as stated: a table with fewer than ten
non-missing (date, value) pairs on which `predict_future_values` does not
fail with the insufficient-data error (it fails with the fit's NaN
rejection, because the guard counts all ten rows). -/
theorem trend_insufficient_cex :
    exTenOneMissing.countP (fun p => p.2.isSome) < 10
  ∧ predict_future_values exTenOneMissing 30 ≠ Except.error insufficientDataMsg := by
  constructor
  · decide
  · have h : predict_future_values exTenOneMissing 30 = Except.error fitNaNMsg := by
      simp [predict_future_values, exTenOneMissing]
    rw [h]
    intro hcon
    exact absurd (Except.error.inj hcon) (by decide)

/-! ## Claim C5 -/

/-- Claim C5 (amended): `validate_financial_data` accepts a table exactly
when it is non-empty, has at least two columns, is not entirely missing,
has a column passing the 80-percent date test, and has at least one
numeric column; finance-keyword column names never influence acceptance,
only the returned message. -/
theorem validation_gate_iff (t : RTable) :
    (validate_financial_data (some t)).1 = true ↔
      (tableEmpty t = false ∧ 2 ≤ t.length ∧ allMissing t = false
        ∧ (t.find? validDateColCheck).isSome ∧ 0 < t.countP numericDtype) := by
  unfold validate_financial_data
  by_cases he : tableEmpty t = true
  · simp [he]
  · have he2 : tableEmpty t = false := by simpa using he
    by_cases hl : t.length < 2
    · simp [he2, hl]
    · by_cases hm : allMissing t = true
      · simp [he2, hl, hm]
      · have hm2 : allMissing t = false := by simpa using hm
        cases hf : t.find? validDateColCheck with
        | none => simp [he2, hl, hm2, hf]
        | some dcol =>
          by_cases hn : t.countP numericDtype = 0
          · simp [he2, hl, hm2, hf, hn]
          · by_cases hk : foundFinancialCols t ≠ []
            · simp [he2, hl, hm2, hf, hn, hk]
              exact ⟨by omega, List.countP_pos_iff.mp (Nat.pos_of_ne_zero hn)⟩
            · simp [he2, hl, hm2, hf, hn, hk]
              exact ⟨by omega, List.countP_pos_iff.mp (Nat.pos_of_ne_zero hn)⟩

/-- A two-column table with finance-keyword names but no parseable date
column. -/
def exKeywordNoDate : RTable :=
  [{ name := "revenue", cells := [RCell.str "abc", RCell.str "xyz"] },
   { name := "cost", cells := [RCell.str "pq", RCell.str "rs"] }]

/-- Counterexample to Claim C5 as stated: a table whose column names carry
finance keywords is still rejected when no valid date column exists — the
keywords do not override the rejection. -/
theorem validation_keyword_cex :
    foundFinancialCols exKeywordNoDate ≠ []
  ∧ (validate_financial_data (some exKeywordNoDate)).1 = false := by
  constructor
  · decide
  · decide

/-! ## Claim C10 -/

theorem natLastLE_trans (a b c : Option ℚ) (h1 : natLastLE a b = true) (h2 : natLastLE b c = true) :
    natLastLE a c = true := by
  cases a <;> cases b <;> cases c <;> simp_all [natLastLE] <;> exact le_trans h1 h2

theorem natLastLE_total (a b : Option ℚ) : (natLastLE a b || natLastLE b a) = true := by
  cases a <;> cases b <;> simp [natLastLE] <;> exact le_total _ _

theorem find?_name_map_cells (g : String → List RCell → List RCell) (t : RTable) (dc : String) :
    (t.map (fun c => { c with cells := g c.name c.cells })).find? (fun c => c.name == dc) =
      (t.find? (fun c => c.name == dc)).map (fun c => { c with cells := g c.name c.cells }) := by
  induction t with
  | nil => rfl
  | cons c rest ih =>
    by_cases h : (c.name == dc) = true
    · simp [List.find?_cons_of_pos, h]
    · have h2 : (c.name == dc) = false := by simpa using h
      simp only [List.map_cons]
      rw [List.find?_cons_of_neg _ (by simpa using h2), List.find?_cons_of_neg _ (by simpa using h2)]
      exact ih

theorem colCells_map_cells (g : String → List RCell → List RCell) (t : RTable) (dc : String) :
    colCells (t.map (fun c => { c with cells := g c.name c.cells })) dc =
      ((t.find? (fun c => c.name == dc)).map (fun c => g c.name c.cells)).getD [] := by
  unfold colCells
  rw [find?_name_map_cells]
  cases t.find? (fun c => c.name == dc) <;> rfl

/-- After `sortRowsBy`, the sort column itself reads ascending in the
NaT-last date order. -/
theorem sorted_sortRowsBy (t : RTable) (dc : String) :
    List.Sorted (fun x y => natLastLE (dateValueC x) (dateValueC y) = true)
      (colCells (sortRowsBy t dc) dc) := by
  simp only [sortRowsBy]
  rw [colCells_map_cells
    (fun _ cells =>
      (((List.range (colCells t dc).length).mergeSort
        (fun i j => natLastLE (dateValueC ((colCells t dc).getD i RCell.null))
          (dateValueC ((colCells t dc).getD j RCell.null)))).map
        (fun i => cells.getD i RCell.null)))]
  cases hf : t.find? (fun c => c.name == dc) with
  | none => simp
  | some c0 =>
    simp only [Option.map_some', Option.getD_some]
    have hkeys : colCells t dc = c0.cells := by
      unfold colCells
      rw [hf]
      rfl
    rw [hkeys, List.Sorted, List.pairwise_map]
    exact @List.sorted_mergeSort ℕ
      (fun i j => natLastLE (dateValueC (c0.cells.getD i RCell.null))
        (dateValueC (c0.cells.getD j RCell.null)))
      (fun a b c hab hbc => natLastLE_trans _ _ _ hab hbc)
      (fun a b => natLastLE_total _ _)
      (List.range c0.cells.length)

/-- Claim C10: whenever `process_data` identifies a date column, the table
it returns is sorted ascending by that column (NaT last), so downstream
first-to-last computations run in chronological order. -/
theorem process_sorts_by_date (t : RTable) (dc : String)
    (h : (process_data (some t)).2.1 = some dc) :
    List.Sorted (fun x y => natLastLE (dateValueC x) (dateValueC y) = true)
      (colCells ((process_data (some t)).1.getD []) dc) := by
  by_cases he : tableEmpty t = true
  · simp [process_data, he] at h
  · have he2 : tableEmpty t = false := by simpa using he
    simp only [process_data, he2, Bool.false_eq_true, if_false] at h ⊢
    rw [h] at *
    simp only [h, Option.getD_some]
    exact sorted_sortRowsBy _ dc

/-- A concrete table whose date column arrives out of order. -/
def exProcTable : RTable :=
  [{ name := "date", cells := [RCell.dateStr 7, RCell.dateStr 2, RCell.dateStr 5] },
   { name := "amount", cells := [RCell.num 1, RCell.num 2, RCell.num 3] }]

/-- Witness for Claim C10 on a concrete table. -/
theorem process_sorts_by_date_witness :
    List.Sorted (fun x y => natLastLE (dateValueC x) (dateValueC y) = true)
      (colCells ((process_data (some exProcTable)).1.getD []) "date") :=
  process_sorts_by_date exProcTable "date" (by decide)

/-! ## Claim C8 -/

theorem sum_zipWith_resid (a b : ℚ) (xs : List ℚ) :
    ∀ ys : List ℚ, xs.length = ys.length →
      (List.zipWith (fun x y => y - (a + b * x)) xs ys).sum =
        ys.sum - (xs.length : ℚ) * a - b * xs.sum := by
  induction xs with
  | nil =>
    intro ys h
    cases ys with
    | nil => simp
    | cons y yt => simp at h
  | cons x xt ih =>
    intro ys h
    cases ys with
    | nil => simp at h
    | cons y yt =>
      have hlen : xt.length = yt.length := by simpa using h
      simp only [List.zipWith_cons_cons, List.sum_cons, ih yt hlen, List.length_cons]
      push_cast
      ring

theorem offsetsOf_length (pairs : List (ℤ × ℚ)) : (offsetsOf pairs).length = pairs.length := by
  simp [offsetsOf, datesOf, sortPairs, List.length_mergeSort]

theorem valuesOf_length (pairs : List (ℤ × ℚ)) : (valuesOf pairs).length = pairs.length := by
  simp [valuesOf, sortPairs, List.length_mergeSort]

/-- For an ordinary-least-squares fit with intercept, the residuals sum to
zero over the historical window. -/
theorem fitResiduals_sum_zero (pairs : List (ℤ × ℚ)) (h : pairs ≠ []) :
    (fitResiduals pairs).sum = 0 := by
  have hlen : (offsetsOf pairs).length = (valuesOf pairs).length := by
    rw [offsetsOf_length, valuesOf_length]
  have hn : ((offsetsOf pairs).length : ℚ) ≠ 0 := by
    rw [offsetsOf_length]
    exact_mod_cast fun hc => h (List.length_eq_zero.mp hc)
  unfold fitResiduals
  rw [sum_zipWith_resid _ _ _ _ hlen]
  unfold slopeOf interceptOf olsIntercept listMean
  have hx0 : ¬(offsetsOf pairs).length = 0 := fun hc => hn (by exact_mod_cast congrArg Nat.cast hc)
  have hy0 : ¬(valuesOf pairs).length = 0 := fun hc => hx0 (by rw [hlen]; exact hc)
  rw [if_neg hy0, if_neg hx0]
  rw [hlen] at hn ⊢
  field_simp

/-- With a zero sum, the population variance is the mean square. -/
theorem popVar_of_sum_zero (l : List ℚ) (h : l.sum = 0) :
    popVar l = listMean (l.map (fun r => r ^ 2)) := by
  unfold popVar
  by_cases hl : l.length = 0
  · rw [if_pos hl, List.length_eq_zero.mp hl]
    simp [listMean]
  · rw [if_neg hl]
    have hm : listMean l = 0 := by
      rw [listMean, if_neg hl, h]
      simp
    simp only [hm, sub_zero]
    rw [listMean, if_neg (by simpa using hl), List.length_map]

/-- Claim C8: past the guards, `predict_future_values` returns the linear
forecast whose `confidence_interval` equals twice the residual standard
deviation of the fit over the historical window, and whose plotted band is
`forecast ± confidence_interval` — a fixed width at every forecast horizon,
which in particular does not grow with the horizon. -/
theorem confidence_band_fixed (pairs : List (ℤ × Option ℚ)) (days : ℕ)
    (h1 : 10 ≤ pairs.length) (h2 : pairs.any (fun p => p.2.isNone) = false) :
    predict_future_values pairs days =
      Except.ok (predictCore (pairs.map (fun p => (p.1, p.2.getD 0))) days)
  ∧ (predictCore (pairs.map (fun p => (p.1, p.2.getD 0))) days).confidence_interval =
      2 * residStdSpec (pairs.map (fun p => (p.1, p.2.getD 0)))
  ∧ (predictCore (pairs.map (fun p => (p.1, p.2.getD 0))) days).forecast.length = days
  ∧ (predictCore (pairs.map (fun p => (p.1, p.2.getD 0))) days).upperBound =
      (predictCore (pairs.map (fun p => (p.1, p.2.getD 0))) days).forecast.map
        (fun v => (v : ℝ)
          + (predictCore (pairs.map (fun p => (p.1, p.2.getD 0))) days).confidence_interval)
  ∧ (predictCore (pairs.map (fun p => (p.1, p.2.getD 0))) days).lowerBound =
      (predictCore (pairs.map (fun p => (p.1, p.2.getD 0))) days).forecast.map
        (fun v => (v : ℝ)
          - (predictCore (pairs.map (fun p => (p.1, p.2.getD 0))) days).confidence_interval) := by
  have hne : pairs.map (fun p => (p.1, p.2.getD 0)) ≠ [] := by
    intro hc
    have hc2 : pairs = [] := by simpa using hc
    rw [hc2] at h1
    simp at h1
  have hsum := fitResiduals_sum_zero _ hne
  have hvar := popVar_of_sum_zero _ hsum
  refine ⟨?_, ?_, ?_, ?_, ?_⟩
  · unfold predict_future_values
    rw [if_neg (Nat.not_lt.mpr h1), if_neg (by rw [h2]; simp)]
  · simp only [predictCore, residStdSpec, npStd]
    rw [hvar]
    ring
  · simp only [predictCore]
    unfold forecastOf futOffsets
    rw [List.length_map, List.length_map, List.length_range]
  · simp only [predictCore]
    apply List.map_congr_left
    intro v _
    ring
  · simp only [predictCore]
    apply List.map_congr_left
    intro v _
    ring

/-- Ten concrete (date, value) rows for the trend claims. -/
def exTrendPairs : List (ℤ × Option ℚ) :=
  [(0, some 3), (1, some 4), (2, some 6), (3, some 5), (4, some 7),
   (5, some 8), (6, some 7), (7, some 9), (8, some 11), (9, some 10)]

/-- Witness for Claim C8 at a concrete ten-row history. -/
theorem confidence_band_fixed_witness :
    (predictCore (exTrendPairs.map (fun p => (p.1, p.2.getD 0))) 7).confidence_interval =
      2 * residStdSpec (exTrendPairs.map (fun p => (p.1, p.2.getD 0))) :=
  (confidence_band_fixed exTrendPairs 7 (by decide) (by decide)).2.1

/-! ## Claim C2 -/

theorem zip_normalized_sum (W : ℝ) (fs : List ℝ) :
    ∀ ws : List ℝ,
      ((fs.zip (ws.map (fun w => w / W))).map (fun p => p.1 * p.2)).sum =
        ((fs.zip ws).map (fun p => p.1 * p.2)).sum / W := by
  induction fs with
  | nil => intro ws; simp
  | cons f ft ih =>
    intro ws
    cases ws with
    | nil => simp
    | cons w wt =>
      simp only [List.map_cons, List.zip_cons_cons, List.sum_cons, ih wt]
      rw [add_div, mul_div_assoc]

/-- The sequentially built weighted score of the source equals the
renormalized composite the specification describes. -/
theorem weighted_score_eq_composite (t : HTable) : weighted_score t = compositeSpec t := by
  unfold weighted_score compositeSpec
  exact zip_normalized_sum _ _ _

/-- The feature list is empty exactly when no feature is present. -/
theorem healthFeatures_isEmpty_iff (t : HTable) :
    (healthFeatures t).isEmpty = !hasFeatures t := by
  unfold healthFeatures hasFeatures
  cases hrev : colNamesWith t revenueKeys <;> cases hexp : colNamesWith t expenseKeys <;>
    by_cases hv : volPresent t = true <;> simp [hv]

/-- Claim C2 (amended): with at least ten rows and at least one available
feature, `predict_financial_health` clips each feature to [-1, 1],
renormalizes the weights of the present features to sum to one, takes the
weighted sum as the composite, maps it to the score
`int((composite + 1) * 50)` — truncation toward zero, not rounding —
clamped to [0, 100], and labels the score by the fixed thresholds. -/
theorem health_score_formula (t : HTable) (h10 : 10 ≤ t.nrows) (hf : hasFeatures t = true) :
    (predict_financial_health t).health_score =
      some (max 0 (min 100 (pyInt ((compositeSpec t + 1) * 50))))
  ∧ (predict_financial_health t).description =
      healthLabel (max 0 (min 100 (pyInt ((compositeSpec t + 1) * 50)))) := by
  unfold predict_financial_health
  rw [if_neg (Nat.not_lt.mpr h10)]
  have hemp : (healthFeatures t).isEmpty = false := by
    rw [healthFeatures_isEmpty_iff, hf]
    rfl
  rw [if_neg (by rw [hemp]; simp)]
  rw [weighted_score_eq_composite]
  exact ⟨rfl, rfl⟩

/-- Ten rows of a single revenue column falling by 2 per row: slope -2,
mean 1000, so the lone feature is exactly -1/500. -/
def exHealth : HTable :=
  { nrows := 10
    cols := [("revenue", [1009, 1007, 1005, 1003, 1001, 999, 997, 995, 993, 991])] }

/-- Witness for Claim C2 (amended) at the concrete table. -/
theorem health_score_formula_witness :
    (predict_financial_health exHealth).health_score =
      some (max 0 (min 100 (pyInt ((compositeSpec exHealth + 1) * 50)))) :=
  (health_score_formula exHealth (by decide) (by decide)).1

theorem exHealth_xs : (List.range 10).map (fun (i : ℕ) => (i : ℚ)) = [0,1,2,3,4,5,6,7,8,9] := by
  simp [List.range_succ]

theorem exHealth_slope :
    olsSlope [0,1,2,3,4,5,6,7,8,9]
      [1009, 1007, 1005, 1003, 1001, 999, 997, 995, 993, 991] = -2 := by
  unfold olsSlope
  norm_num [List.zip_cons_cons, List.zip_nil_right, List.sum_cons, List.sum_nil, List.map_cons,
    List.map_nil, List.length_cons, List.length_nil]

theorem exHealth_composite : compositeSpec exHealth = -(1 / 500 : ℝ) := by
  have hrev : colNamesWith exHealth revenueKeys = ["revenue"] := by decide
  have hexp : colNamesWith exHealth expenseKeys = [] := by decide
  have hvol : volPresent exHealth = false := by decide
  have hcolv : hcol exHealth "revenue" =
      [1009, 1007, 1005, 1003, 1001, 999, 997, 995, 993, 991] := rfl
  have hlen : ([1009, 1007, 1005, 1003, 1001, 999, 997, 995, 993, 991] : List ℚ).length = 10 := rfl
  have hmean : listMean ([1009, 1007, 1005, 1003, 1001, 999, 997, 995, 993, 991] : List ℚ) = 1000 := by
    norm_num [listMean, List.sum_cons, List.sum_nil]
  have hnt : normTrend (hcol exHealth "revenue") = -(1 / 500) := by
    rw [hcolv]
    unfold normTrend indexSlope
    rw [hlen, exHealth_xs, exHealth_slope, hmean]
    norm_num
  have hfeat : healthFeatures exHealth = [((-(1 / 500) : ℚ) : ℝ)] := by
    unfold healthFeatures
    rw [hrev, hexp, hvol]
    simp [hnt]
  have hw : healthWeights exHealth = [(0.4 : ℝ)] := by
    unfold healthWeights
    rw [hrev, hexp, hvol]
    simp
  unfold compositeSpec
  rw [hfeat, hw]
  push_cast
  norm_num [npClip]

/-- Counterexample to Claim C2 as stated: at the concrete table the code
truncates `(composite + 1) * 50 = 49.9` to a score of 49, while the
claim's `round((composite + 1) * 50)` formula gives 50. -/
theorem health_round_cex :
    (predict_financial_health exHealth).health_score = some 49
  ∧ max 0 (min 100 (round ((compositeSpec exHealth + 1) * 50))) = 50 := by
  have hfeat : healthFeatures exHealth = [((-(1 / 500) : ℚ) : ℝ)] := by
    have hrev : colNamesWith exHealth revenueKeys = ["revenue"] := by decide
    have hexp : colNamesWith exHealth expenseKeys = [] := by decide
    have hvol : volPresent exHealth = false := by decide
    have hcolv : hcol exHealth "revenue" =
        [1009, 1007, 1005, 1003, 1001, 999, 997, 995, 993, 991] := rfl
    have hlen : ([1009, 1007, 1005, 1003, 1001, 999, 997, 995, 993, 991] : List ℚ).length = 10 := rfl
    have hmean : listMean ([1009, 1007, 1005, 1003, 1001, 999, 997, 995, 993, 991] : List ℚ) = 1000 := by
      norm_num [listMean, List.sum_cons, List.sum_nil]
    have hnt : normTrend (hcol exHealth "revenue") = -(1 / 500) := by
      rw [hcolv]
      unfold normTrend indexSlope
      rw [hlen, exHealth_xs, exHealth_slope, hmean]
      norm_num
    unfold healthFeatures
    rw [hrev, hexp, hvol]
    simp [hnt]
  constructor
  · unfold predict_financial_health
    rw [if_neg (by decide)]
    rw [if_neg (by simp [hfeat])]
    rw [weighted_score_eq_composite, exHealth_composite]
    have hfl : pyInt ((-(1 / 500 : ℝ) + 1) * 50) = 49 := by
      unfold pyInt
      rw [if_pos (by norm_num)]
      rw [show ((-(1 / 500 : ℝ) + 1) * 50) = 499 / 10 by norm_num]
      rw [Int.floor_eq_iff]
      norm_num
    rw [hfl]
    simp
  · rw [exHealth_composite]
    have hr : round ((-(1 / 500 : ℝ) + 1) * 50) = 50 := by
      rw [show ((-(1 / 500 : ℝ) + 1) * 50) = 499 / 10 by norm_num]
      rw [round_eq]
      rw [show ((499 / 10 : ℝ) + 1 / 2) = 252 / 5 by norm_num]
      rw [Int.floor_eq_iff]
      norm_num
    rw [hr]
    norm_num

/-! ## Claim C4 -/

theorem tryIndicator_fst (ind : String) (cols : List RawCol) :
    ∀ att : List String,
      (cols.map RawCol.name).Nodup →
      (∀ n ∈ att, ∀ c ∈ cols, c.name = n → toDatetimeOk c = false) →
      (tryIndicator ind att cols).1 =
        (cols.find? (fun c => strContains (lowerStr c.name) ind && toDatetimeOk c)).map
          RawCol.name := by
  induction cols with
  | nil => intro att _ _; rfl
  | cons c rest ih =>
    intro att hnd H
    have hndr : (rest.map RawCol.name).Nodup := by
      rw [List.map_cons, List.nodup_cons] at hnd
      exact hnd.2
    have hhead : c.name ∉ rest.map RawCol.name := by
      rw [List.map_cons, List.nodup_cons] at hnd
      exact hnd.1
    have Hrest : ∀ n ∈ att, ∀ c₂ ∈ rest, c₂.name = n → toDatetimeOk c₂ = false :=
      fun n hn c₂ hc₂ => H n hn c₂ (List.mem_cons_of_mem _ hc₂)
    unfold tryIndicator
    by_cases hm : strContains (lowerStr c.name) ind = true
    · by_cases hat : att.contains c.name = true
      · have hatm : c.name ∈ att := by simpa using hat
        have hok : toDatetimeOk c = false :=
          H c.name hatm c (List.mem_cons_self c rest) rfl
        rw [if_neg (by simp [hm, hatm])]
        rw [List.find?_cons_of_neg _ (by simp [hok])]
        exact ih att hndr Hrest
      · have hatm : c.name ∉ att := by simpa using hat
        rw [if_pos (by simp [hm, hatm])]
        by_cases hok : toDatetimeOk c = true
        · rw [if_pos hok, List.find?_cons_of_pos _ (by simp [hm, hok])]
          rfl
        · have hok2 : toDatetimeOk c = false := by simpa using hok
          rw [if_neg (by simp [hok2])]
          rw [List.find?_cons_of_neg _ (by simp [hok2])]
          apply ih (att ++ [c.name]) hndr
          intro n hn c₂ hc₂ hname
          rcases List.mem_append.mp hn with h1 | h2
          · exact Hrest n h1 c₂ hc₂ hname
          · exfalso
            have hn2 : n = c.name := by simpa using h2
            apply hhead
            rw [← hn2, ← hname]
            exact List.mem_map_of_mem RawCol.name hc₂
    · rw [if_neg (by simp [hm])]
      rw [List.find?_cons_of_neg _ (by simp [hm])]
      exact ih att hndr Hrest

theorem tryIndicator_att_sub (ind : String) (cols : List RawCol) :
    ∀ (att : List String) (x : String), x ∈ att → x ∈ (tryIndicator ind att cols).2 := by
  induction cols with
  | nil => intro att x hx; exact hx
  | cons c rest ih =>
    intro att x hx
    unfold tryIndicator
    by_cases hm : (strContains (lowerStr c.name) ind && !att.contains c.name) = true
    · rw [if_pos hm]
      by_cases hok : toDatetimeOk c = true
      · rw [if_pos hok]
        exact hx
      · rw [if_neg hok]
        exact ih (att ++ [c.name]) x (List.mem_append_left _ hx)
    · rw [if_neg hm]
      exact ih att x hx

theorem tryIndicator_att_mem (ind : String) (cols : List RawCol) :
    ∀ (att : List String) (x : String),
      x ∈ (tryIndicator ind att cols).2 →
      x ∈ att ∨ ∃ c, c ∈ cols ∧ c.name = x ∧ strContains (lowerStr c.name) ind = true
        ∧ toDatetimeOk c = false := by
  induction cols with
  | nil => intro att x hx; exact Or.inl hx
  | cons c rest ih =>
    intro att x hx
    unfold tryIndicator at hx
    by_cases hm : (strContains (lowerStr c.name) ind && !att.contains c.name) = true
    · rw [if_pos hm] at hx
      by_cases hok : toDatetimeOk c = true
      · rw [if_pos hok] at hx
        exact Or.inl hx
      · rw [if_neg hok] at hx
        rcases ih (att ++ [c.name]) x hx with h1 | ⟨c₂, hc₂, hrest⟩
        · rcases List.mem_append.mp h1 with ha | hb
          · exact Or.inl ha
          · refine Or.inr ⟨c, List.mem_cons_self c rest, ?_, ?_, ?_⟩
            · have hx2 : x = c.name := by simpa using hb
              exact hx2.symm
            · have hm2 := hm
              simp only [Bool.and_eq_true] at hm2
              exact hm2.1
            · simpa using hok
        · exact Or.inr ⟨c₂, List.mem_cons_of_mem _ hc₂, hrest⟩
    · rw [if_neg hm] at hx
      rcases ih att x hx with h1 | ⟨c₂, hc₂, hrest⟩
      · exact Or.inl h1
      · exact Or.inr ⟨c₂, List.mem_cons_of_mem _ hc₂, hrest⟩

theorem tryIndicator_complete (ind : String) (cols : List RawCol) :
    ∀ att : List String,
      (tryIndicator ind att cols).1 = none →
      ∀ c ∈ cols, strContains (lowerStr c.name) ind = true →
        c.name ∈ (tryIndicator ind att cols).2 := by
  induction cols with
  | nil => intro att _ c hc; exact absurd hc (List.not_mem_nil c)
  | cons c0 rest ih =>
    intro att hnone c hc hcind
    unfold tryIndicator at hnone ⊢
    by_cases hm : (strContains (lowerStr c0.name) ind && !att.contains c0.name) = true
    · rw [if_pos hm] at hnone ⊢
      by_cases hok : toDatetimeOk c0 = true
      · rw [if_pos hok] at hnone
        exact absurd hnone (by simp)
      · rw [if_neg hok] at hnone ⊢
        rcases List.mem_cons.mp hc with hceq | hcr
        · subst hceq
          exact tryIndicator_att_sub ind rest (att ++ [c.name]) c.name
            (List.mem_append_right _ (List.mem_singleton.mpr rfl))
        · exact ih (att ++ [c0.name]) hnone c hcr hcind
    · rw [if_neg hm] at hnone ⊢
      rcases List.mem_cons.mp hc with hceq | hcr
      · subst hceq
        have hat : c.name ∈ att := by
          by_contra hcon
          exact hm (by simp [hcind, hcon])
        exact tryIndicator_att_sub ind rest att c.name hat
      · exact ih att hnone c hcr hcind

theorem pass1_fst (cols : List RawCol) (hnd : (cols.map RawCol.name).Nodup) :
    ∀ (inds : List String) (att : List String),
      (∀ n ∈ att, ∀ c ∈ cols, c.name = n → toDatetimeOk c = false) →
      (findDateNamePass1 cols att inds).1 =
        inds.findSome? (fun ind =>
          (cols.find? (fun c => strContains (lowerStr c.name) ind && toDatetimeOk c)).map
            RawCol.name) := by
  intro inds
  induction inds with
  | nil => intro att _; rfl
  | cons ind rest ih =>
    intro att H
    unfold findDateNamePass1
    rw [List.findSome?_cons]
    have hfst := tryIndicator_fst ind cols att hnd H
    cases hti : tryIndicator ind att cols with
    | mk o att2 =>
      rw [hti] at hfst
      dsimp only at hfst
      cases o with
      | some cname =>
        rw [← hfst]
      | none =>
        rw [← hfst]
        have H2 : ∀ n ∈ att2, ∀ c ∈ cols, c.name = n → toDatetimeOk c = false := by
          intro n hn c hc hname
          have hmem := tryIndicator_att_mem ind cols att n (by rw [hti]; exact hn)
          rcases hmem with h1 | ⟨c₂, hc₂, hn₂, _, hok₂⟩
          · exact H n h1 c hc hname
          · have hceq : c = c₂ := List.inj_on_of_nodup_map hnd hc hc₂ (by rw [hname, hn₂])
            rw [hceq]
            exact hok₂
        exact ih att2 H2

theorem pass1_complete (cols : List RawCol) :
    ∀ (inds : List String) (att : List String),
      (findDateNamePass1 cols att inds).1 = none →
      (∀ x ∈ att, x ∈ (findDateNamePass1 cols att inds).2)
      ∧ (∀ c ∈ cols, (∃ ind ∈ inds, strContains (lowerStr c.name) ind = true) →
          c.name ∈ (findDateNamePass1 cols att inds).2)
      ∧ (∀ x ∈ (findDateNamePass1 cols att inds).2,
          x ∈ att ∨ ∃ c, c ∈ cols ∧ c.name = x
            ∧ ∃ ind ∈ inds, strContains (lowerStr c.name) ind = true) := by
  intro inds
  induction inds with
  | nil =>
    intro att _
    refine ⟨fun x hx => hx, ?_, fun x hx => Or.inl hx⟩
    rintro c _ ⟨ind, hind, _⟩
    exact absurd hind (List.not_mem_nil ind)
  | cons ind rest ih =>
    intro att hnone
    unfold findDateNamePass1 at hnone ⊢
    cases hti : tryIndicator ind att cols with
    | mk o att2 =>
      rw [hti] at hnone
      cases o with
      | some cname => exact absurd hnone (by simp)
      | none =>
        obtain ⟨iha, ihb, ihc⟩ := ih att2 hnone
        refine ⟨?_, ?_, ?_⟩
        · intro x hx
          have hx2 : x ∈ att2 := by
            have := tryIndicator_att_sub ind cols att x hx
            rwa [hti] at this
          exact iha x hx2
        · rintro c hc ⟨ind2, hind2, hcont⟩
          rcases List.mem_cons.mp hind2 with heq | hrest2
          · subst heq
            have hmem : c.name ∈ att2 := by
              have := tryIndicator_complete ind2 cols att (by rw [hti]) c hc hcont
              rwa [hti] at this
            exact iha c.name hmem
          · exact ihb c hc ⟨ind2, hrest2, hcont⟩
        · intro x hx
          rcases ihc x hx with h1 | ⟨c, hc, hname, ind2, hind2, hcont⟩
          · have := tryIndicator_att_mem ind cols att x (by rw [hti]; exact h1)
            rcases this with h2 | ⟨c, hc, hname, hcont, _⟩
            · exact Or.inl h2
            · exact Or.inr ⟨c, hc, hname, ind, List.mem_cons_self ind rest, hcont⟩
          · exact Or.inr ⟨c, hc, hname, ind2, List.mem_cons_of_mem _ hind2, hcont⟩

theorem find?_congr_mem {α : Type} (l : List α) (p q : α → Bool) (h : ∀ a ∈ l, p a = q a) :
    l.find? p = l.find? q := by
  induction l with
  | nil => rfl
  | cons a rest ih =>
    have hpa := h a (List.mem_cons_self a rest)
    by_cases hp : p a = true
    · rw [List.find?_cons_of_pos _ hp, List.find?_cons_of_pos _ (hpa ▸ hp)]
    · have hp2 : p a = false := by simpa using hp
      rw [List.find?_cons_of_neg _ (by simp [hp2]), List.find?_cons_of_neg _ (by simp [← hpa, hp2])]
      exact ih (fun b hb => h b (List.mem_cons_of_mem _ hb))

theorem find?_on_filter {α : Type} (l : List α) (p q : α → Bool) :
    (l.filter p).find? q = l.find? (fun a => p a && q a) := by
  induction l with
  | nil => rfl
  | cons a rest ih =>
    by_cases hp : p a = true
    · rw [List.filter_cons_of_pos hp]
      by_cases hq : q a = true
      · rw [List.find?_cons_of_pos _ hq, List.find?_cons_of_pos _ (by simp [hp, hq])]
      · have hq2 : q a = false := by simpa using hq
        rw [List.find?_cons_of_neg _ (by simp [hq2]), List.find?_cons_of_neg _ (by simp [hq2])]
        exact ih
    · have hp2 : p a = false := by simpa using hp
      rw [List.filter_cons_of_neg (by simp [hp2]), List.find?_cons_of_neg _ (by simp [hp2])]
      exact ih

/-- Claim C4: the date-column search of `process_data` equals its two-pass
specification — first the indicator substrings (date, time, day, month,
year, period) in priority order, taking the first fully-parsing column, and
only if that fails a blind parse over the remaining (indicator-free)
columns in original order, first success winning. -/
theorem date_search_two_pass (t : RTable) (hnd : (t.map RawCol.name).Nodup) :
    findDateColumn t = findDateColumnSpec t := by
  unfold findDateColumn findDateColumnSpec findDateColumnSpecPass1
  have h1 := pass1_fst t hnd dateIndicators [] (by simp)
  cases hp : findDateNamePass1 t [] dateIndicators with
  | mk r att =>
    rw [hp] at h1
    dsimp only at h1
    cases r with
    | some cname =>
      rw [← h1]
    | none =>
      rw [← h1]
      have hcomp := pass1_complete t dateIndicators [] (by rw [hp])
      rw [hp] at hcomp
      dsimp only at hcomp
      obtain ⟨_, hb, hcx⟩ := hcomp
      dsimp only
      rw [find?_on_filter]
      refine congrArg (Option.map RawCol.name) (find?_congr_mem t _ _ ?_)
      intro c hc
      have hcm : att.contains c.name = hasIndicator c.name := by
        cases hhi : hasIndicator c.name with
        | true =>
          obtain ⟨ind, hind, hcont⟩ :
              ∃ ind ∈ dateIndicators, strContains (lowerStr c.name) ind = true := by
            simpa [hasIndicator, List.any_eq_true] using hhi
          have hmem : c.name ∈ att := hb c hc ⟨ind, hind, hcont⟩
          simpa using hmem
        | false =>
          cases hat2 : att.contains c.name with
          | false => rfl
          | true =>
            exfalso
            have hmem : c.name ∈ att := by simpa using hat2
            rcases hcx c.name hmem with h1x | ⟨c₂, hc₂, hname₂, ind, hind, hcont⟩
            · exact absurd h1x (List.not_mem_nil _)
            · have htrue : hasIndicator c.name = true := by
                unfold hasIndicator
                refine List.any_eq_true.mpr ⟨ind, hind, ?_⟩
                rw [← hname₂]
                exact hcont
              rw [htrue] at hhi
              exact absurd hhi (by simp)
      rw [hcm]

/-- A concrete table exercising the two passes: a numeric column named
"Year" fails nothing — it parses — but the priority order tries "date"
first and picks the parsing "Date" column. -/
def exDateSearch : RTable :=
  [{ name := "amount", cells := [RCell.num 3, RCell.num 4] },
   { name := "Date", cells := [RCell.dateStr 10, RCell.dateStr 11] },
   { name := "Year", cells := [RCell.num 2020, RCell.num 2021] }]

/-- Witness for Claim C4 on a concrete table. -/
theorem date_search_two_pass_witness :
    findDateColumn exDateSearch = findDateColumnSpec exDateSearch :=
  date_search_two_pass exDateSearch (by decide)
